import Mathlib

/-!
Shallow embedding of the artifactory sync tool
(src/artifactory_sync/artifactory_sync.py and src/scripts/artifactory_sync.py).

The remote source tree is modelled inductively: a folder's listing either
fails permanently (after retries are exhausted) or yields its child nodes.
Each file node carries the outcome of its `download_file` call, since the
backend transport is an external collaborator.  Machine state that the
Python code threads implicitly (staged files, remote repository content,
sleeps performed by the retry loop) is made explicit in the return values.
-/

namespace ArtifactorySync

/-- Python's `s.lstrip('/')`: drop every leading slash. -/
def lstripSlash (s : String) : String :=
  ⟨s.data.dropWhile (· == '/')⟩

/-- Python's `s.rstrip('/')`: drop every trailing slash. -/
def rstripSlash (s : String) : String :=
  ⟨(s.data.reverse.dropWhile (· == '/')).reverse⟩

/-- A node of the remote source tree as produced by `list_artifacts`:
`uri` is the repository-relative path reported by the listing endpoint
(possibly with a leading slash, which the engine strips), `folder` is the
folder flag.  For a file, `dlOk` records whether the `download_file`
transport call succeeds; for a folder, `listOk` records whether listing
that folder succeeds after retries are exhausted, and `children` is its
listing result when it does. -/
inductive RNode where
  | file (uri : String) (dlOk : Bool)
  | folder (uri : String) (listOk : Bool) (children : List RNode)

/-- Result of one downloader call: the `(success_count, fail_count)` pair
together with the repository-relative paths of the files materialized under
the staging root (`local_dir / artifact_path` in the source). -/
structure DlResult where
  succ : Nat
  fail : Nat
  staged : List String
deriving DecidableEq, Repr

/-- Sequential accumulation of two downloader results, as the loop in
`download_artifacts_recursively` does with `+=` on both counters. -/
def DlResult.append (a b : DlResult) : DlResult :=
  ⟨a.succ + b.succ, a.fail + b.fail, a.staged ++ b.staged⟩

mutual

/-- Package variant (src/artifactory_sync/artifactory_sync.py, lines
592-615): processing of one listed artifact inside the loop.  A file is
downloaded to `local_dir / uri.lstrip('/')` and counted; a folder is
recursed into, and a listing failure inside that recursive call is caught
by the recursive frame's own `except` clause, yielding `(0, 0)` for that
branch only. -/
def dlNode : RNode → DlResult
  | .file uri dlOk =>
      if dlOk then ⟨1, 0, [lstripSlash uri]⟩ else ⟨0, 1, []⟩
  | .folder _ false _ => ⟨0, 0, []⟩
  | .folder _ true children => dlList children

/-- Package variant: the loop over one listing result. -/
def dlList : List RNode → DlResult
  | [] => ⟨0, 0, []⟩
  | n :: rest => (dlNode n).append (dlList rest)

end

/-- Package variant `download_artifacts_recursively` at the top level:
`listOk` is whether listing the source path itself succeeds; a failure is
caught and the zero counts accumulated so far are returned. -/
def download_artifacts_recursively (listOk : Bool) (listing : List RNode) : DlResult :=
  if listOk then dlList listing else ⟨0, 0, []⟩

mutual

/-- Scripts variant (src/scripts/artifactory_sync.py, lines 192-227):
same traversal, but the function returns a single success count and its
`except Exception` clause re-raises, so a listing failure anywhere
propagates out of the whole traversal (modelled by `Except.error`),
discarding the counts accumulated so far. -/
def dlNodeScripts : RNode → Except Unit Nat
  | .file _ dlOk => .ok (if dlOk then 1 else 0)
  | .folder _ false _ => .error ()
  | .folder _ true children => dlListScripts children

/-- Scripts variant: the loop over one listing result; an error raised by
a recursive call aborts the loop and is re-raised. -/
def dlListScripts : List RNode → Except Unit Nat
  | [] => .ok 0
  | n :: rest => do
      let a ← dlNodeScripts n
      let b ← dlListScripts rest
      return a + b

end

/-- Scripts variant `download_artifacts_recursively` at the top level. -/
def download_artifacts_recursively_scripts (listOk : Bool) (listing : List RNode) :
    Except Unit Nat :=
  if listOk then dlListScripts listing else .error ()

mutual

/-- Number of file nodes reachable by recursive listing: files under a
folder whose listing fails are not reached. -/
def reachFiles : RNode → Nat
  | .file _ _ => 1
  | .folder _ false _ => 0
  | .folder _ true children => reachFilesList children

/-- Reachable file nodes of a whole listing result. -/
def reachFilesList : List RNode → Nat
  | [] => 0
  | n :: rest => reachFiles n + reachFilesList rest

end

mutual

/-- Whether a file node with uri `u` whose download succeeds is reachable
by recursive listing inside a node. -/
def hasOkFile : RNode → String → Bool
  | .file uri dlOk, u => uri == u && dlOk
  | .folder _ false _, _ => false
  | .folder _ true children, u => hasOkFileList children u

/-- Whether such a file node is reachable inside a listing result. -/
def hasOkFileList : List RNode → String → Bool
  | [], _ => false
  | n :: rest, u => hasOkFile n u || hasOkFileList rest u

end

/-- What `raise last_exception` at the end of `_retry_request` amounts to:
a successful return from attempt `attempt` (0-based), re-raising the last
recorded `RequestException`, or raising `None` (a `TypeError`, not a
transport error) when the loop body never ran and `last_exception` was
never assigned. -/
inductive RetryOutcome where
  | success (attempt : Nat)
  | transportError
  | typeError
deriving DecidableEq, Repr

/-- `ArtifactoryClient._retry_request` (lines 107-118), from loop index
`attempt` on: `outcomes i` is whether the wrapped backend call succeeds at
attempt `i`.  Returns the outcome, the list of waits performed (in time
units, `2 ** attempt` after each failed attempt except the last), and the
number of backend calls made. -/
def retryAux (outcomes : Nat → Bool) (retries : Nat) (attempt : Nat) :
    RetryOutcome × List Nat × Nat :=
  if h : attempt < retries then
    if outcomes attempt then (.success attempt, [], 1)
    else
      let rest := retryAux outcomes retries (attempt + 1)
      if attempt < retries - 1 then (rest.1, 2 ^ attempt :: rest.2.1, rest.2.2 + 1)
      else (rest.1, rest.2.1, rest.2.2 + 1)
  else
    (if attempt = 0 then .typeError else .transportError, [], 0)
termination_by retries - attempt
decreasing_by omega

/-- `ArtifactoryClient._retry_request`: the loop starts at attempt 0. -/
def retry_request (retries : Nat) (outcomes : Nat → Bool) :
    RetryOutcome × List Nat × Nat :=
  retryAux outcomes retries 0

/-- The default of the `retries` parameter of `ArtifactoryClient.__init__`. -/
def defaultRetries : Nat := 3

/-- A regular file under the staging root, keyed by its path relative to
the staging root (slash-separated); `readable` is whether `stat` on it
succeeds, `upOk` whether the transport PUT for it succeeds if issued. -/
structure LFile where
  rel : String
  readable : Bool
  upOk : Bool
deriving DecidableEq, Repr

/-- State threaded through the upload loop: the two counters, the artifact
paths passed to `upload_file` (in order), the paths for which a network or
external-process transfer call was actually issued, and the set of files
present in the destination repository (as a list of paths). -/
structure UpState where
  succ : Nat
  fail : Nat
  attempts : List String
  transfers : List String
  remote : List String
deriving DecidableEq, Repr

/-- The per-file artifact path computation of the upload loop (lines
688-691): `dest_path` here is already `rstrip`-ed of trailing slashes. -/
def joinArtifactPath (destPath rel : String) : String :=
  if destPath = "" then rel else destPath ++ "/" ++ rel

/-- The artifact path a staged file at relative path `rel` is uploaded to,
for a raw destination path `destPath` (line 662 applies `rstrip('/')`). -/
def uploadTargetPath (destPath rel : String) : String :=
  joinArtifactPath (rstripSlash destPath) rel

/-- `ArtifactoryClient.upload_file` (lines 253-280), abstracted over the
per-file facts: `stat` on an unreadable file raises `OSError`, which this
variant's `except` clause (RequestException only) does not catch — `none`.
In dry-run mode no transfer call is issued and the result is `true`.
Otherwise the PUT is issued and a transport failure becomes `false`.
Result: `some (success, transferIssued)`. -/
def uploadFileRest (dryRun : Bool) (_ap : String) (f : LFile) : Option (Bool × Bool) :=
  if !f.readable then none
  else if dryRun then some (true, false)
  else some (f.upOk, true)

/-- `JFrogCLIClient.upload_file` (lines 476-546): same shape, but the
`except OSError` clause converts an unreadable file into `false` with no
command run. -/
def uploadFileJfrog (dryRun : Bool) (_ap : String) (f : LFile) : Option (Bool × Bool) :=
  if !f.readable then some (false, false)
  else if dryRun then some (true, false)
  else some (f.upOk, true)

/-- One iteration of the upload loop (lines 682-704) for file `f`:
compute the artifact path, call the client's `upload_file`, update the
counters and, when a transfer was issued and succeeded, the destination
repository content (an unconditional overwrite PUT; the client strips
leading slashes from the artifact path when forming the URL). -/
def uploadStep (client : String → LFile → Option (Bool × Bool)) (destPath : String)
    (st : UpState) (f : LFile) : Option UpState :=
  let ap := joinArtifactPath destPath f.rel
  match client ap f with
  | none => none
  | some (ok, tr) =>
      some { succ := st.succ + (if ok then 1 else 0)
           , fail := st.fail + (if ok then 0 else 1)
           , attempts := st.attempts ++ [ap]
           , transfers := st.transfers ++ (if tr then [lstripSlash ap] else [])
           , remote := if tr && ok then st.remote.insert (lstripSlash ap) else st.remote }

/-- The upload loop over the enumerated staged files, in order.  An
exception escaping `upload_file` aborts the phase (`none`); a boolean
result is counted and the loop continues. -/
def uploadList (client : String → LFile → Option (Bool × Bool)) (destPath : String) :
    List LFile → UpState → Option UpState
  | [], st => some st
  | f :: rest, st =>
      match uploadStep client destPath st f with
      | none => none
      | some st' => uploadList client destPath rest st'

/-- `upload_artifacts_recursively` (lines 626-711): strip trailing slashes
from the destination path, enumerate every regular file under the staging
root (`files`, order as produced by `rglob`), and attempt each one.
`remote` is the destination repository content before the run. -/
def upload_artifacts_recursively (client : String → LFile → Option (Bool × Bool))
    (destPath : String) (files : List LFile) (remote : List String) : Option UpState :=
  uploadList client (rstripSlash destPath) files
    ⟨0, 0, [], [], remote⟩

/-- Outcome of the download-then-upload body of `sync_artifacts` once the
clients are constructed: normal completion with the two count pairs, a
`requests.exceptions.RequestException` or `OSError` escaping a phase
(unrecoverable resource error), or a `KeyboardInterrupt`. -/
inductive RunEvent where
  | completed (dlSucc dlFail upSucc upFail : Nat)
  | resourceError
  | interrupted
deriving DecidableEq, Repr

/-- Exit code of `sync_artifacts` (lines 776-938): the four credential
environment variables are checked first (`sys.exit(1)` when a side's pair
is incomplete); with `--validate`, a failed `list_artifacts('')` against
either side exits 1 before any transfer; then the body runs and a normal
fall-through completion exits 0 regardless of the per-node failure counts,
while an escaping resource error or a `KeyboardInterrupt` exits 1. -/
def sync_artifacts_exit (srcUser srcPass destUser destPass : Bool)
    (validate srcConnOk destConnOk : Bool) (ev : RunEvent) : Nat :=
  if !(srcUser && srcPass) then 1
  else if !(destUser && destPass) then 1
  else if validate && !srcConnOk then 1
  else if validate && !destConnOk then 1
  else match ev with
    | .completed _ _ _ _ => 0
    | .resourceError => 1
    | .interrupted => 1

/-! Helper lemmas about the downloader. -/

theorem DlResult.append_assoc (a b c : DlResult) :
    (a.append b).append c = a.append (b.append c) := by
  simp [DlResult.append, Nat.add_assoc]

theorem DlResult.zero_append (a : DlResult) :
    (⟨0, 0, []⟩ : DlResult).append a = a := by
  simp [DlResult.append]

theorem dlList_append (a b : List RNode) :
    dlList (a ++ b) = (dlList a).append (dlList b) := by
  induction a with
  | nil => simp [dlList, DlResult.zero_append]
  | cons n rest ih => simp [dlList, ih, DlResult.append_assoc]

mutual

theorem dlNode_sum : (n : RNode) → (dlNode n).succ + (dlNode n).fail = reachFiles n
  | .file u dlOk => by cases dlOk <;> simp [dlNode, reachFiles]
  | .folder u false children => by simp [dlNode, reachFiles]
  | .folder u true children => by
      simpa [dlNode, reachFiles] using dlList_sum children

theorem dlList_sum : (cs : List RNode) → (dlList cs).succ + (dlList cs).fail = reachFilesList cs
  | [] => by simp [dlList, reachFilesList]
  | n :: rest => by
      have h1 := dlNode_sum n
      have h2 := dlList_sum rest
      simp only [dlList, reachFilesList, DlResult.append]
      omega

end

/-- Claim C1: the package-variant Tree Downloader returns a
`(successCount, failureCount)` pair whose sum is the number of file nodes
reachable by recursive listing from the source path (each successful
`download_file` call incrementing the success counter and each failed one
the failure counter, by definition of `dlNode`), and listing an empty
folder returns `(0, 0)` without an error. -/
theorem claim_download_accounting (cs : List RNode) :
    (download_artifacts_recursively true cs).succ
        + (download_artifacts_recursively true cs).fail = reachFilesList cs
  ∧ download_artifacts_recursively true [] = ⟨0, 0, []⟩ := by
  refine ⟨?_, rfl⟩
  simpa [download_artifacts_recursively] using dlList_sum cs

/-- Claim C2, counterexample: in the scripts variant
(src/scripts/artifactory_sync.py), whose `except` clause re-raises, a
permanent listing failure in one subtree propagates out of
`download_artifacts_recursively` (modelled as `Except.error`), discarding
the success already accumulated for the sibling file — so the claim as
stated is false for that variant. -/
theorem claim_listing_failure_counterexample :
    download_artifacts_recursively_scripts true
      [RNode.file "/done.txt" true, RNode.folder "bad" false [], RNode.file "/after.txt" true]
      = .error () := rfl

/-- Claim C2, amended: in the package variant
(src/artifactory_sync/artifactory_sync.py), a permanent listing failure in
one subtree is caught by that recursion frame and terminates only that
branch: the result is a normally returned pair (no exception, so the run
proceeds to the upload phase) in which the counts and staged files of all
sibling branches are preserved and the failed branch contributes zero. -/
theorem claim_download_pkg_isolates_listing_failure (pre post : List RNode)
    (u : String) (children : List RNode) :
    download_artifacts_recursively true (pre ++ RNode.folder u false children :: post)
      = ⟨(dlList pre).succ + (dlList post).succ,
         (dlList pre).fail + (dlList post).fail,
         (dlList pre).staged ++ (dlList post).staged⟩ := by
  simp [download_artifacts_recursively, dlList_append, dlList, dlNode,
    DlResult.append, DlResult.zero_append]

/-- Claim C6: the orchestrator's exit contract.  A run that completes
exits 0 even when individual downloads or uploads failed (arbitrary
failure counts `b`, `d`); missing credentials on either side exit 1
before any network activity; a failed connectivity validation exits 1; an
unrecoverable resource error and a user interrupt exit 1. -/
theorem claim_exit_code_contract (su sp du dpw v so dok : Bool) (a b c d : Nat)
    (hcred : (su && sp) = false ∨ (du && dpw) = false)
    (hv : v = true) (hconn : (so && dok) = false) :
    sync_artifacts_exit true true true true v true true (.completed a b c d) = 0
  ∧ sync_artifacts_exit su sp du dpw v so dok (.completed a b c d) = 1
  ∧ sync_artifacts_exit true true true true v so dok (.completed a b c d) = 1
  ∧ sync_artifacts_exit true true true true v true true .resourceError = 1
  ∧ sync_artifacts_exit true true true true v true true .interrupted = 1 := by
  subst hv
  refine ⟨by simp [sync_artifacts_exit], ?_, ?_, by simp [sync_artifacts_exit],
    by simp [sync_artifacts_exit]⟩
  · rcases hcred with hc | hc <;>
      cases su <;> cases sp <;> cases du <;> cases dpw <;>
      simp_all [sync_artifacts_exit]
  · cases so <;> cases dok <;> simp_all [sync_artifacts_exit]

/-- Claim C6, witness: exercised at a run with missing source password,
failed source validation, and nonzero per-node failure counts. -/
theorem claim_exit_code_contract_witness :
    sync_artifacts_exit true true true true true true true (.completed 5 2 4 1) = 0
  ∧ sync_artifacts_exit true false true true true false true (.completed 5 2 4 1) = 1
  ∧ sync_artifacts_exit true true true true true false true (.completed 5 2 4 1) = 1
  ∧ sync_artifacts_exit true true true true true true true .resourceError = 1
  ∧ sync_artifacts_exit true true true true true true true .interrupted = 1 :=
  claim_exit_code_contract true false true true true false true 5 2 4 1
    (Or.inl rfl) rfl rfl

/-! Helper lemmas about the retry executor. -/

theorem retryAux_success (outcomes : Nat → Bool) (retries : Nat) :
    ∀ (j a : Nat), a + j < retries →
      (∀ i, i < j → outcomes (a + i) = false) → outcomes (a + j) = true →
      retryAux outcomes retries a
        = (.success (a + j), (List.range' a j).map (2 ^ ·), j + 1)
  | 0, a, hlt, _, hs => by
      have ha : a < retries := by omega
      have hs' : outcomes a = true := by simpa using hs
      rw [retryAux, dif_pos ha, if_pos hs']
      simp
  | j + 1, a, hlt, hf, hs => by
      have ha : a < retries := by omega
      have h0 : outcomes a = false := by simpa using hf 0 (by omega)
      have ih := retryAux_success outcomes retries j (a + 1) (by omega)
        (fun i hi => by
          have := hf (i + 1) (by omega)
          simpa [Nat.add_assoc, Nat.add_comm 1 i] using this)
        (by simpa [Nat.add_assoc, Nat.add_comm 1 j] using hs)
      have hmid : a < retries - 1 := by omega
      rw [retryAux, dif_pos ha, if_neg (by simp [h0]), if_pos hmid, ih]
      have hidx : a + 1 + j = a + (j + 1) := by omega
      simp [List.range'_succ, hidx]

theorem retryAux_allfail (outcomes : Nat → Bool) (retries a : Nat)
    (ha : a < retries) (hf : ∀ i, a ≤ i → i < retries → outcomes i = false) :
    retryAux outcomes retries a
      = (.transportError, (List.range' a (retries - 1 - a)).map (2 ^ ·), retries - a) := by
  have h0 : outcomes a = false := hf a le_rfl ha
  rw [retryAux, dif_pos ha, if_neg (by simp [h0])]
  by_cases hlast : a < retries - 1
  · have ih := retryAux_allfail outcomes retries (a + 1) (by omega)
      (fun i h1 h2 => hf i (by omega) h2)
    rw [if_pos hlast, ih]
    have e1 : retries - 1 - a = (retries - 1 - (a + 1)) + 1 := by omega
    have e2 : retries - a = (retries - (a + 1)) + 1 := by omega
    rw [e1, List.range'_succ]
    simp [e2]
  · have hend : ¬ a + 1 < retries := by omega
    have hnz : ¬ a + 1 = 0 := by omega
    rw [if_neg hlast, retryAux, dif_neg hend, if_neg hnz]
    have e1 : retries - 1 - a = 0 := by omega
    have e2 : retries - a = 1 := by omega
    simp [e1, e2]
termination_by retries - a

theorem retryAux_ne_typeError (outcomes : Nat → Bool) (retries a : Nat)
    (ha : a < retries) :
    (retryAux outcomes retries a).1 ≠ RetryOutcome.typeError := by
  rw [retryAux, dif_pos ha]
  by_cases hs : outcomes a = true
  · simp [hs]
  · by_cases hend : a + 1 < retries
    · have ih := retryAux_ne_typeError outcomes retries (a + 1) hend
      by_cases hmid : a < retries - 1 <;> simp [hs, hmid, ih]
    · have hnz : ¬ a + 1 = 0 := by omega
      have hmid : ¬ a < retries - 1 := by omega
      rw [if_neg (by simp [hs]), if_neg hmid, retryAux, dif_neg hend, if_neg hnz]
      simp
termination_by retries - a

theorem retryAux_calls_le (outcomes : Nat → Bool) (retries a : Nat) :
    (retryAux outcomes retries a).2.2 ≤ retries - a := by
  rw [retryAux]
  by_cases ha : a < retries
  · rw [dif_pos ha]
    by_cases hs : outcomes a = true
    · simp [hs]; omega
    · have ih := retryAux_calls_le outcomes retries (a + 1)
      by_cases hmid : a < retries - 1 <;> simp [hs, hmid] <;> omega
  · rw [dif_neg ha]; simp
termination_by retries - a

theorem retryAux_calls_pos (outcomes : Nat → Bool) (retries a : Nat)
    (ha : a < retries) : 1 ≤ (retryAux outcomes retries a).2.2 := by
  rw [retryAux, dif_pos ha]
  by_cases hs : outcomes a = true
  · simp [hs]
  · by_cases hmid : a < retries - 1 <;> simp [hs, hmid]

/-- Claim C3: `_retry_request` makes up to `retries` attempts (the default
being `defaultRetries = 3`); with attempt indices starting at 0, a first
success at attempt `k` returns after exactly the backoff waits
`2^0, …, 2^(k-1)` (one after each failed attempt), while a schedule `g`
failing every attempt performs the waits `2^0, …, 2^(retries-2)` — no wait
after the last attempt — and re-raises the last failure.  In particular,
failing twice and succeeding at the third attempt is a success with
exactly the two waits 1 and 2. -/
theorem claim_retry_request_policy (retries k : Nat) (outcomes g : Nat → Bool)
    (hk : k < retries)
    (hf : ∀ i, i < k → outcomes i = false)
    (hs : outcomes k = true)
    (hg : ∀ i, i < retries → g i = false) :
    retry_request retries outcomes
        = (.success k, (List.range k).map (2 ^ ·), k + 1)
  ∧ retry_request retries g
        = (.transportError, (List.range (retries - 1)).map (2 ^ ·), retries)
  ∧ (retries = defaultRetries → k = 2 →
      retry_request defaultRetries outcomes = (.success 2, [1, 2], 3)) := by
  have h1 : retry_request retries outcomes
      = (.success k, (List.range k).map (2 ^ ·), k + 1) := by
    have := retryAux_success outcomes retries k 0 (by omega)
      (fun i hi => by simpa using hf i hi) (by simpa using hs)
    simpa [retry_request, List.range_eq_range'] using this
  have h2 : retry_request retries g
      = (.transportError, (List.range (retries - 1)).map (2 ^ ·), retries) := by
    have := retryAux_allfail g retries 0 (by omega) (fun i _ h => hg i h)
    simpa [retry_request, List.range_eq_range'] using this
  refine ⟨h1, h2, fun hr hk2 => ?_⟩
  subst hr; subst hk2
  simpa [defaultRetries] using h1

/-- Claim C3, witness: a schedule failing at attempts 0 and 1 and
succeeding at attempt 2, and a schedule always failing, both at the
default of 3 retries. -/
theorem claim_retry_request_policy_witness :
    retry_request 3 (fun n => n == 2)
        = (.success 2, (List.range 2).map (2 ^ ·), 3)
  ∧ retry_request 3 (fun _ => false)
        = (.transportError, (List.range 2).map (2 ^ ·), 3)
  ∧ (3 = defaultRetries → 2 = 2 →
      retry_request defaultRetries (fun n => n == 2) = (.success 2, [1, 2], 3)) :=
  claim_retry_request_policy 3 2 (fun n => n == 2) (fun _ => false)
    (by omega) (by decide) rfl (fun i _ => rfl)

/-- Claim C10: with `retries = 0` the loop body of `_retry_request` never
runs, no backend call is attempted, and the final `raise last_exception`
raises the never-assigned `None` — a `TypeError`, not a transport error;
with `retries ≥ 1` the raised outcome is never that `TypeError` and the
number of backend calls made is between 1 and `retries`. -/
theorem claim_retry_request_zero_retries (outcomes : Nat → Bool) (retries : Nat)
    (h1 : 1 ≤ retries) :
    retry_request 0 outcomes = (.typeError, [], 0)
  ∧ (retry_request retries outcomes).1 ≠ RetryOutcome.typeError
  ∧ 1 ≤ (retry_request retries outcomes).2.2
  ∧ (retry_request retries outcomes).2.2 ≤ retries := by
  refine ⟨?_, ?_, ?_, ?_⟩
  · rw [retry_request, retryAux]; simp
  · exact retryAux_ne_typeError outcomes retries 0 (by omega)
  · exact retryAux_calls_pos outcomes retries 0 (by omega)
  · simpa using retryAux_calls_le outcomes retries 0

/-- Claim C10, witness: a single-retry executor with an always-failing
schedule makes exactly one attempt, while zero retries make none and
produce the `TypeError` outcome. -/
theorem claim_retry_request_zero_retries_witness :
    retry_request 0 (fun _ => false) = (.typeError, [], 0)
  ∧ (retry_request 1 (fun _ => false)).1 ≠ RetryOutcome.typeError
  ∧ 1 ≤ (retry_request 1 (fun _ => false)).2.2
  ∧ (retry_request 1 (fun _ => false)).2.2 ≤ 1 :=
  claim_retry_request_zero_retries (fun _ => false) 1 (by omega)

/-! Helper lemmas about the uploader. -/

/-- The artifact paths (leading slashes stripped, as the clients do when
forming the URL) whose uploads succeed, in processing order. -/
def okPaths (destPath : String) (files : List LFile) : List String :=
  (files.filter (fun f => f.upOk)).map (fun f => lstripSlash (joinArtifactPath destPath f.rel))

/-- Successive unconditional overwrites of the remote path set. -/
def insertAll (l ps : List String) : List String :=
  ps.foldl (fun acc p => acc.insert p) l

theorem mem_insertAll_left {a : String} (ps : List String) {l : List String}
    (h : a ∈ l) : a ∈ insertAll l ps := by
  induction ps generalizing l with
  | nil => exact h
  | cons p ps ih => exact ih (List.mem_insert_of_mem h)

theorem mem_insertAll_of_mem {a : String} {ps : List String} (l : List String)
    (h : a ∈ ps) : a ∈ insertAll l ps := by
  induction ps generalizing l with
  | nil => cases h
  | cons p ps ih =>
      rcases List.mem_cons.mp h with h | h
      · subst h
        exact mem_insertAll_left ps (List.mem_insert_self _ _)
      · exact ih _ h

theorem insertAll_eq_self {ps l : List String} (h : ∀ a ∈ ps, a ∈ l) :
    insertAll l ps = l := by
  induction ps with
  | nil => rfl
  | cons p ps ih =>
      have hp : l.insert p = l := List.insert_of_mem (h p (by simp))
      show insertAll (l.insert p) ps = l
      rw [hp]
      exact ih (fun b hb => h b (by simp [hb]))

theorem insertAll_idem (l ps : List String) :
    insertAll (insertAll l ps) ps = insertAll l ps :=
  insertAll_eq_self (fun _ ha => mem_insertAll_of_mem l ha)

theorem uploadList_accounting (client : String → LFile → Option (Bool × Bool))
    (dp : String) :
    ∀ (files : List LFile) (st : UpState),
      (∀ f ∈ files, (client (joinArtifactPath dp f.rel) f).isSome = true) →
      ∃ st', uploadList client dp files st = some st'
        ∧ st'.succ + st'.fail = st.succ + st.fail + files.length
        ∧ st'.attempts = st.attempts ++ files.map (fun f => joinArtifactPath dp f.rel)
  | [], st, _ => ⟨st, by simp [uploadList]⟩
  | f :: rest, st, h => by
      obtain ⟨⟨ok, tr⟩, hp⟩ :=
        Option.isSome_iff_exists.mp (h f (by simp))
      have hstep : uploadStep client dp st f = some
          { succ := st.succ + (if ok then 1 else 0)
          , fail := st.fail + (if ok then 0 else 1)
          , attempts := st.attempts ++ [joinArtifactPath dp f.rel]
          , transfers := st.transfers
              ++ (if tr then [lstripSlash (joinArtifactPath dp f.rel)] else [])
          , remote := if tr && ok then
                st.remote.insert (lstripSlash (joinArtifactPath dp f.rel))
              else st.remote } := by
        simp only [uploadStep, hp]
      obtain ⟨st', hrun, hsum, hatt⟩ :=
        uploadList_accounting client dp rest
          { succ := st.succ + (if ok then 1 else 0)
          , fail := st.fail + (if ok then 0 else 1)
          , attempts := st.attempts ++ [joinArtifactPath dp f.rel]
          , transfers := st.transfers
              ++ (if tr then [lstripSlash (joinArtifactPath dp f.rel)] else [])
          , remote := if tr && ok then
                st.remote.insert (lstripSlash (joinArtifactPath dp f.rel))
              else st.remote }
          (fun g hg => h g (by simp [hg]))
      refine ⟨st', ?_, ?_, ?_⟩
      · simp only [uploadList, hstep]
        exact hrun
      · rw [hsum]
        cases ok <;> simp <;> omega
      · rw [hatt]
        simp

/-- Under a per-file client behavior that, in dry-run mode, confirms a
readable file and reports success without issuing any transfer, the upload
loop leaves transfers and the remote content untouched. -/
theorem uploadList_dry (client : String → LFile → Option (Bool × Bool))
    (hc : ∀ ap (f : LFile), f.readable = true → client ap f = some (true, false))
    (dp : String) :
    ∀ (files : List LFile) (st : UpState), (∀ f ∈ files, f.readable = true) →
      uploadList client dp files st
        = some { succ := st.succ + files.length, fail := st.fail
               , attempts := st.attempts ++ files.map (fun f => joinArtifactPath dp f.rel)
               , transfers := st.transfers, remote := st.remote }
  | [], st, _ => by simp [uploadList]
  | f :: rest, st, h => by
      have hf : f.readable = true := h f (by simp)
      have hstep : uploadStep client dp st f = some
          { succ := st.succ + 1, fail := st.fail
          , attempts := st.attempts ++ [joinArtifactPath dp f.rel]
          , transfers := st.transfers, remote := st.remote } := by
        simp [uploadStep, hc _ f hf]
      have ih := uploadList_dry client hc dp rest
        { succ := st.succ + 1, fail := st.fail
        , attempts := st.attempts ++ [joinArtifactPath dp f.rel]
        , transfers := st.transfers, remote := st.remote }
        (fun g hg => h g (by simp [hg]))
      simp only [uploadList, hstep]
      rw [ih]
      refine congrArg some ?_
      simp [UpState.mk.injEq]
      omega

/-- The REST client's wet upload path on an all-readable staging tree:
every file is PUT exactly once, and the remote content receives exactly
the successfully uploaded paths, as unconditional overwrites. -/
theorem uploadList_wet_rest (dp : String) :
    ∀ (files : List LFile) (st : UpState), (∀ f ∈ files, f.readable = true) →
      uploadList (uploadFileRest false) dp files st
        = some { succ := st.succ + files.countP (fun f => f.upOk)
               , fail := st.fail + files.countP (fun f => !f.upOk)
               , attempts := st.attempts ++ files.map (fun f => joinArtifactPath dp f.rel)
               , transfers := st.transfers
                   ++ files.map (fun f => lstripSlash (joinArtifactPath dp f.rel))
               , remote := insertAll st.remote (okPaths dp files) }
  | [], st, _ => by simp [uploadList, okPaths, insertAll]
  | f :: rest, st, h => by
      have hf : f.readable = true := h f (by simp)
      have hstep : uploadStep (uploadFileRest false) dp st f = some
          { succ := st.succ + (if f.upOk then 1 else 0)
          , fail := st.fail + (if f.upOk then 0 else 1)
          , attempts := st.attempts ++ [joinArtifactPath dp f.rel]
          , transfers := st.transfers ++ [lstripSlash (joinArtifactPath dp f.rel)]
          , remote := if f.upOk then
                st.remote.insert (lstripSlash (joinArtifactPath dp f.rel))
              else st.remote } := by
        cases hok : f.upOk <;> simp [uploadStep, uploadFileRest, hf, hok]
      have ih := uploadList_wet_rest dp rest
        { succ := st.succ + (if f.upOk then 1 else 0)
        , fail := st.fail + (if f.upOk then 0 else 1)
        , attempts := st.attempts ++ [joinArtifactPath dp f.rel]
        , transfers := st.transfers ++ [lstripSlash (joinArtifactPath dp f.rel)]
        , remote := if f.upOk then
              st.remote.insert (lstripSlash (joinArtifactPath dp f.rel))
            else st.remote }
        (fun g hg => h g (by simp [hg]))
      simp only [uploadList, hstep]
      rw [ih]
      refine congrArg some ?_
      cases hok : f.upOk <;>
        simp [UpState.mk.injEq, List.countP_cons, hok, okPaths, insertAll, hf,
          List.filter_cons] <;>
        omega

/-- One-run closed form of the wet REST upload phase. -/
theorem upload_wet_rest_run (dp : String) (files : List LFile) (remote : List String)
    (h : ∀ f ∈ files, f.readable = true) :
    upload_artifacts_recursively (uploadFileRest false) dp files remote
      = some { succ := files.countP (fun f => f.upOk)
             , fail := files.countP (fun f => !f.upOk)
             , attempts := files.map (fun f => uploadTargetPath dp f.rel)
             , transfers := files.map (fun f => lstripSlash (uploadTargetPath dp f.rel))
             , remote := insertAll remote (okPaths (rstripSlash dp) files) } := by
  rw [upload_artifacts_recursively, uploadList_wet_rest (rstripSlash dp) files _ h]
  simp [uploadTargetPath]

/-- Claim C7: the Tree Uploader attempts every regular file under the
staging root exactly once, in enumeration order and with no early abort on
individual failures — stated for any backend client that returns a boolean
for each of these files rather than throwing (the §4.1 capability
contract; both shipped clients do so for readable files) — and the
returned pair satisfies `successCount + failureCount = total regular
files`. -/
theorem claim_upload_accounting (client : String → LFile → Option (Bool × Bool))
    (dp : String) (files : List LFile) (remote : List String)
    (h : ∀ f ∈ files, (client (uploadTargetPath dp f.rel) f).isSome = true) :
    (upload_artifacts_recursively client dp files remote).map (fun st => st.succ + st.fail)
        = some files.length
  ∧ (upload_artifacts_recursively client dp files remote).map (fun st => st.attempts)
        = some (files.map (fun f => uploadTargetPath dp f.rel)) := by
  obtain ⟨st', hrun, hsum, hatt⟩ :=
    uploadList_accounting client (rstripSlash dp) files ⟨0, 0, [], [], remote⟩
      (fun f hf => by simpa [uploadTargetPath] using h f hf)
  rw [upload_artifacts_recursively, hrun]
  constructor
  · simpa using hsum
  · simpa [uploadTargetPath] using congrArg some hatt

/-- Claim C7, witness: three staged files, one of which fails its
transport call, under the JFrog CLI client in wet mode. -/
theorem claim_upload_accounting_witness :
    (upload_artifacts_recursively (uploadFileJfrog false) "x/y"
        ([⟨"a.txt", true, true⟩, ⟨"lib/b.jar", true, false⟩, ⟨"c.txt", true, true⟩] :
          List LFile) []).map
        (fun st => st.succ + st.fail) = some 3
  ∧ (upload_artifacts_recursively (uploadFileJfrog false) "x/y"
        ([⟨"a.txt", true, true⟩, ⟨"lib/b.jar", true, false⟩, ⟨"c.txt", true, true⟩] :
          List LFile) []).map
        (fun st => st.attempts)
      = some (([⟨"a.txt", true, true⟩, ⟨"lib/b.jar", true, false⟩, ⟨"c.txt", true, true⟩] :
          List LFile).map (fun f => uploadTargetPath "x/y" f.rel)) :=
  claim_upload_accounting (uploadFileJfrog false) "x/y"
    [⟨"a.txt", true, true⟩, ⟨"lib/b.jar", true, false⟩, ⟨"c.txt", true, true⟩] []
    (by decide)

/-- Claim C4: with `dryRun = true` and every staged file readable, the
upload phase issues no network or external-process transfer call, leaves
the destination repository content unchanged, and reports a success count
equal to the number of readable local files under the staging root — for
both the REST client and the JFrog CLI client. -/
theorem claim_dry_run_pure (dp : String) (files : List LFile) (remote : List String)
    (h : ∀ f ∈ files, f.readable = true) :
    (upload_artifacts_recursively (uploadFileRest true) dp files remote).map
        (fun st => (st.succ, st.fail, st.transfers, st.remote))
      = some (files.length, 0, [], remote)
  ∧ (upload_artifacts_recursively (uploadFileJfrog true) dp files remote).map
        (fun st => (st.succ, st.fail, st.transfers, st.remote))
      = some (files.length, 0, [], remote) := by
  constructor
  · rw [upload_artifacts_recursively,
      uploadList_dry (uploadFileRest true)
        (fun ap f hf => by simp [uploadFileRest, hf]) (rstripSlash dp) files _ h]
    simp
  · rw [upload_artifacts_recursively,
      uploadList_dry (uploadFileJfrog true)
        (fun ap f hf => by simp [uploadFileJfrog, hf]) (rstripSlash dp) files _ h]
    simp

/-- Claim C4, witness: two readable staged files against a nonempty
destination repository. -/
theorem claim_dry_run_pure_witness :
    (upload_artifacts_recursively (uploadFileRest true) "x/y"
        ([⟨"a.txt", true, true⟩, ⟨"b/c.txt", true, false⟩] : List LFile) ["old.bin"]).map
        (fun st => (st.succ, st.fail, st.transfers, st.remote))
      = some (2, 0, [], ["old.bin"])
  ∧ (upload_artifacts_recursively (uploadFileJfrog true) "x/y"
        ([⟨"a.txt", true, true⟩, ⟨"b/c.txt", true, false⟩] : List LFile) ["old.bin"]).map
        (fun st => (st.succ, st.fail, st.transfers, st.remote))
      = some (2, 0, [], ["old.bin"]) :=
  claim_dry_run_pure "x/y" [⟨"a.txt", true, true⟩, ⟨"b/c.txt", true, false⟩]
    ["old.bin"] (by decide)

/-- Claim C8: uploads are unconditional overwrite PUTs to the same
artifact paths, so running the Tree Uploader twice with `dryRun = false`
over the same (all-readable) staging tree yields the same final set of
remote files as running it once. -/
theorem claim_upload_idempotent (dp : String) (files : List LFile) (remote : List String)
    (h : ∀ f ∈ files, f.readable = true) :
    ((upload_artifacts_recursively (uploadFileRest false) dp files remote).bind
        (fun st1 => (upload_artifacts_recursively (uploadFileRest false) dp files st1.remote).map
          (fun st2 => st2.remote)))
      = (upload_artifacts_recursively (uploadFileRest false) dp files remote).map
          (fun st1 => st1.remote)
  ∧ (upload_artifacts_recursively (uploadFileRest false) dp files remote).isSome = true := by
  rw [upload_wet_rest_run dp files remote h]
  refine ⟨?_, rfl⟩
  simp only [Option.some_bind, Option.map_some']
  rw [upload_wet_rest_run dp files _ h]
  simp [insertAll_idem]

/-- Claim C8, witness: two staged files, one failing its PUT, against a
destination already holding an unrelated file. -/
theorem claim_upload_idempotent_witness :
    ((upload_artifacts_recursively (uploadFileRest false) "x/y"
        ([⟨"a.txt", true, true⟩, ⟨"b/c.txt", true, false⟩] : List LFile) ["old.bin"]).bind
        (fun st1 => (upload_artifacts_recursively (uploadFileRest false) "x/y"
          ([⟨"a.txt", true, true⟩, ⟨"b/c.txt", true, false⟩] : List LFile) st1.remote).map
          (fun st2 => st2.remote)))
      = (upload_artifacts_recursively (uploadFileRest false) "x/y"
          ([⟨"a.txt", true, true⟩, ⟨"b/c.txt", true, false⟩] : List LFile) ["old.bin"]).map
          (fun st1 => st1.remote)
  ∧ (upload_artifacts_recursively (uploadFileRest false) "x/y"
        ([⟨"a.txt", true, true⟩, ⟨"b/c.txt", true, false⟩] : List LFile) ["old.bin"]).isSome
      = true :=
  claim_upload_idempotent "x/y" [⟨"a.txt", true, true⟩, ⟨"b/c.txt", true, false⟩]
    ["old.bin"] (by decide)

/-! Order independence and path fidelity. -/

/-- Claim C9: for every listing result and every permutation of it, the
Tree Downloader produces the same `(successCount, failureCount)` pair and
materializes the same staged files (the staged lists are permutations of
one another, hence the same set): the engine does not depend on the order
in which the backend's list operation returns children. -/
theorem claim_download_order_independent (cs cs' : List RNode) (h : cs.Perm cs') :
    (dlList cs).succ = (dlList cs').succ
  ∧ (dlList cs).fail = (dlList cs').fail
  ∧ (dlList cs).staged.Perm (dlList cs').staged := by
  induction h with
  | nil => exact ⟨rfl, rfl, List.Perm.nil⟩
  | cons x _ ih =>
      obtain ⟨h1, h2, h3⟩ := ih
      refine ⟨?_, ?_, ?_⟩
      · simp [dlList, DlResult.append, h1]
      · simp [dlList, DlResult.append, h2]
      · simp only [dlList, DlResult.append]
        exact h3.append_left _
  | swap x y l =>
      refine ⟨?_, ?_, ?_⟩
      · simp [dlList, DlResult.append]; omega
      · simp [dlList, DlResult.append]; omega
      · simp only [dlList, DlResult.append]
        rw [← List.append_assoc, ← List.append_assoc]
        exact List.perm_append_comm.append_right _
  | trans _ _ ih1 ih2 =>
      exact ⟨ih1.1.trans ih2.1, ih1.2.1.trans ih2.2.1, ih1.2.2.trans ih2.2.2⟩

/-- Claim C9, witness: a two-element listing and its transposition, one
file downloading successfully and one failing. -/
theorem claim_download_order_independent_witness :
    (dlList [RNode.file "/b.txt" false, RNode.file "/a.txt" true]).succ
        = (dlList [RNode.file "/a.txt" true, RNode.file "/b.txt" false]).succ
  ∧ (dlList [RNode.file "/b.txt" false, RNode.file "/a.txt" true]).fail
        = (dlList [RNode.file "/a.txt" true, RNode.file "/b.txt" false]).fail
  ∧ (dlList [RNode.file "/b.txt" false, RNode.file "/a.txt" true]).staged.Perm
        (dlList [RNode.file "/a.txt" true, RNode.file "/b.txt" false]).staged :=
  claim_download_order_independent _ _
    (List.Perm.swap (RNode.file "/a.txt" true) (RNode.file "/b.txt" false) [])

mutual

theorem hasOkFile_staged : (n : RNode) → (u : String) → hasOkFile n u = true →
    lstripSlash u ∈ (dlNode n).staged
  | .file uri dlOk, u, h => by
      have h' := h
      simp only [hasOkFile, Bool.and_eq_true, beq_iff_eq] at h'
      obtain ⟨rfl, hok⟩ := h'
      simp [dlNode, hok]
  | .folder _ false _, u, h => by
      simp [hasOkFile] at h
  | .folder _ true children, u, h => by
      have := hasOkFileList_staged children u (by simpa [hasOkFile] using h)
      simpa [dlNode] using this

theorem hasOkFileList_staged : (cs : List RNode) → (u : String) →
    hasOkFileList cs u = true → lstripSlash u ∈ (dlList cs).staged
  | [], u, h => by simp [hasOkFileList] at h
  | n :: rest, u, h => by
      simp only [hasOkFileList, Bool.or_eq_true] at h
      simp only [dlList, DlResult.append, List.mem_append]
      rcases h with h | h
      · exact Or.inl (hasOkFile_staged n u h)
      · exact Or.inr (hasOkFileList_staged rest u h)

end

/-- Claim C5, path fidelity: a file node with uri `u` whose download
succeeds, reachable by recursive listing, is staged at exactly its
repository-relative path `u.lstrip('/')` under the staging root (the
staging structure mirrors the source structure, no renaming); the Tree
Uploader's artifact path is `destPath + '/' + relativePath` for a
non-empty destination path (so destination `x/y` with staged file
`a/b/c.txt` uploads to `x/y/a/b/c.txt`) and the relative path unmodified
for an empty one. -/
theorem claim_path_fidelity (cs : List RNode) (u d rel : String)
    (h : hasOkFileList cs u = true) (hd : rstripSlash d = d) (hne : d ≠ "") :
    lstripSlash u ∈ (download_artifacts_recursively true cs).staged
  ∧ uploadTargetPath d rel = d ++ "/" ++ rel
  ∧ uploadTargetPath "" rel = rel
  ∧ uploadTargetPath "x/y" "a/b/c.txt" = "x/y/a/b/c.txt" := by
  refine ⟨?_, ?_, ?_, by decide⟩
  · simpa [download_artifacts_recursively] using hasOkFileList_staged cs u h
  · rw [uploadTargetPath, hd, joinArtifactPath, if_neg hne]
  · have h0 : rstripSlash "" = "" := by decide
    rw [uploadTargetPath, h0, joinArtifactPath, if_pos rfl]

/-- Claim C5, witness: the artifact at source path `a/b/c.txt` (listed
with a leading slash) two folders deep, staged at `a/b/c.txt` and
uploaded under destination path `x/y`. -/
theorem claim_path_fidelity_witness :
    lstripSlash "/a/b/c.txt" ∈ (download_artifacts_recursively true
        [RNode.folder "/a" true [RNode.folder "/a/b" true
          [RNode.file "/a/b/c.txt" true]]]).staged
  ∧ uploadTargetPath "x/y" "a/b/c.txt" = "x/y" ++ "/" ++ "a/b/c.txt"
  ∧ uploadTargetPath "" "a/b/c.txt" = "a/b/c.txt"
  ∧ uploadTargetPath "x/y" "a/b/c.txt" = "x/y/a/b/c.txt" :=
  claim_path_fidelity
    [RNode.folder "/a" true [RNode.folder "/a/b" true [RNode.file "/a/b/c.txt" true]]]
    "/a/b/c.txt" "x/y" "a/b/c.txt" (by decide) (by decide) (by decide)

end ArtifactorySync
